import Mathlib

/-!
Shallow embedding of the websims n-body simulation core
(src/src/sim/simulation.ts and src/dist/n-dim-vector.js).

Modelling conventions:
* JavaScript numbers in the simulation step are idealised as exact
  rationals (ℚ).  `Math.sqrt` is not computable on ℚ, so every function
  that reads `r.magnitude` takes a square-root routine `sq : ℚ → ℚ` as a
  parameter; theorems that depend on `sq` really being the square root
  carry the hypothesis `0 ≤ sq s ∧ sq s ^ 2 = s`.  Concrete witnesses use
  `ratSqrt`, which is the exact square root on perfect-square rationals.
* The `NDimVector<2>` instances used by the simulation are modelled as
  pairs `Vec2 := ℚ × ℚ` with the componentwise operations of
  n-dim-vector.js specialised to dimension 2.
* The JS `Map<number, MassiveBody>` is modelled as an association list
  in insertion order (`List (Nat × Body)`): `Map.get` is `mapFind`,
  `Map.set` is `mapSet` (replace in place, else append), `Map.delete`
  is `mapDelete`.
* `MassiveBody` (src/sim/kinetic-body.ts) is not part of the given
  sources; its fields and constructor behaviour are modelled from the
  spec where needed (see `Body`, `mkBody`, `nCollisionMomentum`,
  `bodyEq`): positive mass clamped to `MAX_MASS` at construction,
  process-unique monotonically increasing ids, radius derived from mass
  by an unspecified monotone function (kept as the parameter
  `radiusOf`), acceleration starting at zero.
* For the claim about `div` in n-dim-vector.js the result of dividing
  by zero matters, so that file's scalars are modelled by `JSNum`,
  rationals extended with Infinity, -Infinity and NaN (the signed zero
  of IEEE 754 is conflated with 0, which is irrelevant to the claims).
-/

attribute [local semireducible] Rat.add Rat.sub Rat.mul Rat.inv

/-- Two-dimensional vector: `NDimVector<2>` with exact rational components. -/
abbrev Vec2 : Type := ℚ × ℚ

/-- Componentwise sum, n-dim-vector.js `add` at dimension 2. -/
def vadd (a b : Vec2) : Vec2 := (a.1 + b.1, a.2 + b.2)

/-- Componentwise difference, n-dim-vector.js `sub` at dimension 2. -/
def vsub (a b : Vec2) : Vec2 := (a.1 - b.1, a.2 - b.2)

/-- Vector-scalar product, n-dim-vector.js `mul` at dimension 2. -/
def vmul (a : Vec2) (s : ℚ) : Vec2 := (a.1 * s, a.2 * s)

/-- Vector-scalar quotient, n-dim-vector.js `div` at dimension 2
(rational idealisation: the zero-divisor case, which JS maps to
Infinity/NaN, is modelled exactly in `nvDiv` below; inside the
simulation step the divisor is nonzero on all inputs the theorems
quantify over). -/
def vdiv (a : Vec2) (s : ℚ) : Vec2 := (a.1 / s, a.2 / s)

/-- Componentwise negation (used only to state Newton's-third-law
symmetry, `-x` on each component). -/
def vneg (a : Vec2) : Vec2 := (-a.1, -a.2)

/-- The `magnitudeSquared` of n-dim-vector.js at dimension 2:
`reduce((acc, val) => acc + val * val, 0)`. -/
def magSq (a : Vec2) : ℚ := a.1 * a.1 + a.2 * a.2

/-- Largest `i ≤ bound` with `i * i ≤ n` (0 when none), by downward
scan: a square root on naturals that reduces inside the kernel. -/
def natSqrtBelow (n : Nat) : Nat → Nat
  | 0 => 0
  | Nat.succ k => if (k + 1) * (k + 1) ≤ n then k + 1 else natSqrtBelow n k

/-- Exact square root for perfect-square rationals: the computable
stand-in for `Math.sqrt` used by concrete witnesses.  On a rational
whose numerator and denominator are perfect squares it returns the
exact nonnegative square root. -/
def ratSqrt (q : ℚ) : ℚ :=
  (natSqrtBelow q.num.natAbs q.num.natAbs : ℚ)
    / (natSqrtBelow q.den q.den : ℚ)

/-- The square-root routine `sq` is correct at `s`: `Math.sqrt`
returns the unique nonnegative root. -/
def IsSqrtAt (sq : ℚ → ℚ) (s : ℚ) : Prop := 0 ≤ sq s ∧ sq s ^ 2 = s

/-- The `MassiveBody<2>` record: the fields read by the simulation step.
kinetic-body.ts is not in the given sources; the field list follows the
spec (id, position, velocity, accumulated acceleration, mass, derived
radius, static flag).  The radius is carried as data since the
mass-to-radius function is unspecified. -/
structure Body where
  id : Nat
  pos : Vec2
  vel : Vec2
  acc : Vec2
  m : ℚ
  r : ℚ
  isStatic : Bool
deriving DecidableEq, Repr

/-- Modelled from the spec: `SimulationBody.eq` (kinetic-body.ts is not
in the given sources).  Ids are process-unique, so body equality is id
equality; JS reference equality (`includes`) coincides with it. -/
def bodyEq (a b : Body) : Bool := a.id == b.id

/-- JS `Map<number, Body>` as an insertion-ordered association list. -/
abbrev BodyMap : Type := List (Nat × Body)

/-- JS `Map.get`: the value stored under key `k`, if any. -/
def mapFind (m : BodyMap) (k : Nat) : Option Body :=
  (List.find? (fun p => p.1 == k) m).map (fun p => p.2)

/-- JS `Map.set`: replace the entry with key `k` in place if present,
otherwise append a new entry. -/
def mapSet (m : BodyMap) (k : Nat) (v : Body) : BodyMap :=
  if List.any m (fun p => p.1 == k) then
    List.map (fun p => if p.1 == k then (k, v) else p) m
  else
    m ++ [(k, v)]

/-- JS `Map.delete`: remove the entry with key `k`. -/
def mapDelete (m : BodyMap) (k : Nat) : BodyMap :=
  List.filter (fun p => !(p.1 == k)) m

/-- The method `Simulation.addBody`: `this.bodies.set(body.id, body)` — no
duplicate-id check is performed. -/
def addBody (bodies : BodyMap) (body : Body) : BodyMap :=
  mapSet bodies body.id body

/-- The calibration constant `DISTANCE_SCALE` of `updateAcceleration2`. -/
def DISTANCE_SCALE : ℚ := 6500

/-- State threaded through the pair loop of `updateAcceleration2`:
the body map (JS objects mutated in place, modelled by storing the
updated body back at its key) together with the `collisions` group
list and the `collidedIds` list.  Groups hold the member bodies (JS
object references; position, velocity and mass are never written
during the pass, so the snapshots stay accurate for the merge). -/
structure LoopState where
  bodies : BodyMap
  collisions : List (List Body)
  collidedIds : List Nat
deriving DecidableEq, Repr

/-- The method `Simulation.getCollisionWith` fused with the group-update step of
`updateAcceleration2`: find the first group holding a body `eq` to
`b1` or `b2`; if it `includes b1` push `b2`, else if it `includes b2`
push `b1` (the remaining branch only logs); if no group matches, start
the new group `[b1, b2]`. -/
def addCollision : List (List Body) → Body → Body → List (List Body)
  | [], b1, b2 => [[b1, b2]]
  | c :: cs, b1, b2 =>
      if List.any c (fun b => bodyEq b b1 || bodyEq b b2) then
        (if List.any c (fun b => bodyEq b b1) then c ++ [b2]
         else if List.any c (fun b => bodyEq b b2) then c ++ [b1]
         else c) :: cs
      else c :: addCollision cs b1 b2

/-- One iteration of the inner pair loop of `updateAcceleration2` for
keys `k` (outer) and `k2` (inner): fetch both bodies, compute the
displacement, scaled distance and squared magnitude; on collision
record the pair into the groups and the collided-id list, otherwise
accumulate `accFactor = r / (distanceSquared * distance)` into the
non-static bodies (`+ accFactor * m2` on body 1, `- accFactor * m1`
on body 2). -/
def processPair (sq : ℚ → ℚ) (st : LoopState) (k k2 : Nat) : LoopState :=
  match mapFind st.bodies k, mapFind st.bodies k2 with
  | some b1, some b2 =>
      let r : Vec2 := vsub b2.pos b1.pos
      let distance : ℚ := sq (magSq r) * DISTANCE_SCALE
      let distanceSquared : ℚ := magSq r
      if distance < (b1.r + b2.r) * 400 then
        { st with
            collisions := addCollision st.collisions b1 b2,
            collidedIds := st.collidedIds ++ [b1.id, b2.id] }
      else
        let accFactor : Vec2 := vdiv r (distanceSquared * distance)
        let b1' : Body :=
          if b1.isStatic = false then
            { b1 with acc := vadd b1.acc (vmul accFactor b2.m) }
          else b1
        let b2' : Body :=
          if b2.isStatic = false then
            { b2 with acc := vsub b2.acc (vmul accFactor b1.m) }
          else b2
        { st with bodies := mapSet (mapSet st.bodies k b1') k2 b2' }
  | _, _ => st

/-- The inner loop `for j = i+1 ..` of `updateAcceleration2`, with
`rest` the keys after position `i` in the key list. -/
def innerLoop (sq : ℚ → ℚ) (st : LoopState) (k : Nat) (rest : List Nat) :
    LoopState :=
  List.foldl (fun s k2 => processPair sq s k k2) st rest

/-- The outer loop of `updateAcceleration2` over the key list (taken
once from the map before the loop starts). -/
def pairLoop (sq : ℚ → ℚ) : LoopState → List Nat → LoopState
  | st, [] => st
  | st, k :: ks => pairLoop sq (innerLoop sq st k ks) ks

/-- Total mass of a group: `coll.reduce((acc, b) => acc + b.m, 0)`. -/
def totalMass (coll : List Body) : ℚ :=
  List.foldl (fun acc b => acc + b.m) 0 coll

/-- Sum of the mass-weighted positions of a group (the value the
centre-of-mass fold accumulates). -/
def posMomentSum (coll : List Body) : Vec2 :=
  List.foldl (fun acc b => vadd acc (vmul b.pos b.m)) (0, 0) coll

/-- Sum of the momenta `mass * velocity` of a group. -/
def momentumSum (coll : List Body) : Vec2 :=
  List.foldl (fun acc b => vadd acc (vmul b.vel b.m)) (0, 0) coll

/-- The method `Simulation.centerOfMass`: zero vector for an empty list, the bare
position for a singleton, otherwise the fold accumulating total mass
and total moment, finishing with `moment / mass`. -/
def centerOfMass : List Body → Vec2
  | [] => (0, 0)
  | [b1] => b1.pos
  | b1 :: bs =>
      let mass := List.foldl (fun acc b => acc + b.m) b1.m bs
      let moment :=
        List.foldl (fun acc b => vadd acc (vmul b.pos b.m)) (vmul b1.pos b1.m) bs
      vdiv moment mass

/-- Modelled from the spec: `MassiveBody.nCollisionMomentum`
(kinetic-body.ts is not in the given sources).  The momentum-conserving
combination `Σ(mass_i * vel_i) / Σ(mass_i)` over the group members. -/
def nCollisionMomentum (coll : List Body) : Vec2 :=
  vdiv (momentumSum coll) (totalMass coll)

/-- Modelled from the spec: the `MassiveBody` constructor
(kinetic-body.ts is not in the given sources).  It stores the given
position, velocity and static flag, clamps the mass to `MAX_MASS`
(value unspecified, kept as the parameter `maxMass`), starts the
accumulated acceleration at zero, derives the radius from the stored
mass by an unspecified monotone function (parameter `radiusOf`) and
takes a fresh process-unique id (parameter `newId`, supplied by a
monotonically increasing counter). -/
def mkBody (maxMass : ℚ) (radiusOf : ℚ → ℚ) (newId : Nat) (m : ℚ)
    (pos vel : Vec2) (isStat : Bool) : Body :=
  { id := newId, pos := pos, vel := vel, acc := (0, 0),
    m := min m maxMass, r := radiusOf (min m maxMass), isStatic := isStat }

/-- One group of the loop body of `Simulation.handleCollisions`:
find whether any member is static, total the member masses, build the
merge product (origin/zero for a static group, centre of mass and
collision momentum otherwise), delete every member id from the map and
insert the product under its fresh id. -/
def resolveGroup (maxMass : ℚ) (radiusOf : ℚ → ℚ) (nextId : Nat)
    (bodies : BodyMap) (coll : List Body) : BodyMap :=
  let isStat : Bool := (List.find? (fun b => b.isStatic) coll).isSome
  let mass : ℚ := totalMass coll
  let newBody : Body :=
    mkBody maxMass radiusOf nextId mass
      (if isStat then (0, 0) else centerOfMass coll)
      (if isStat then (0, 0) else nCollisionMomentum coll)
      isStat
  mapSet (List.foldl (fun bs b => mapDelete bs b.id) bodies coll)
    newBody.id newBody

/-- The method `Simulation.handleCollisions`: resolve each group in order; the id
counter increases by one per constructed merge product. -/
def handleCollisions (maxMass : ℚ) (radiusOf : ℚ → ℚ) :
    List (List Body) → BodyMap → Nat → BodyMap
  | [], bodies, _ => bodies
  | c :: cs, bodies, nextId =>
      handleCollisions maxMass radiusOf cs
        (resolveGroup maxMass radiusOf nextId bodies c) (nextId + 1)

/-- The method `Simulation.updateAcceleration2`: run the pair loop over the key
list of the map, then resolve the accumulated collision groups. -/
def updateAcceleration2 (sq : ℚ → ℚ) (maxMass : ℚ) (radiusOf : ℚ → ℚ)
    (bodies : BodyMap) (nextId : Nat) : BodyMap :=
  let keys := List.map (fun p => p.1) bodies
  let st := pairLoop sq ⟨bodies, [], []⟩ keys
  if st.collisions.isEmpty then st.bodies
  else handleCollisions maxMass radiusOf st.collisions st.bodies nextId

/-- JavaScript numbers where division by zero matters: exact rationals
extended with the IEEE 754 special values (signed zero conflated with
zero). -/
inductive JSNum where
  | fin : ℚ → JSNum
  | posInf : JSNum
  | negInf : JSNum
  | nan : JSNum
deriving DecidableEq, Repr

/-- JS `/` on numbers: finite division when the divisor is nonzero;
division by zero gives Infinity, -Infinity or NaN by the sign of the
dividend; NaN propagates; a finite number over an infinity is zero. -/
def jsDiv : JSNum → JSNum → JSNum
  | JSNum.fin a, JSNum.fin b =>
      if b = 0 then
        (if 0 < a then JSNum.posInf
         else if a < 0 then JSNum.negInf
         else JSNum.nan)
      else JSNum.fin (a / b)
  | JSNum.fin _, JSNum.posInf => JSNum.fin 0
  | JSNum.fin _, JSNum.negInf => JSNum.fin 0
  | JSNum.fin _, JSNum.nan => JSNum.nan
  | JSNum.posInf, JSNum.fin b => if b < 0 then JSNum.negInf else JSNum.posInf
  | JSNum.negInf, JSNum.fin b => if b < 0 then JSNum.posInf else JSNum.negInf
  | JSNum.posInf, _ => JSNum.nan
  | JSNum.negInf, _ => JSNum.nan
  | JSNum.nan, _ => JSNum.nan

/-- Whether a JS number is finite (neither an infinity nor NaN). -/
def jsFinite : JSNum → Bool
  | JSNum.fin _ => true
  | _ => false

/-- The function `div` of n-dim-vector.js: when the scalar `=== 0` it emits
`console.error` (modelled by the Boolean flag in the first component)
and in every case it returns the componentwise quotient — it does not
throw. -/
def nvDiv (vector : List JSNum) (scalar : JSNum) : Bool × List JSNum :=
  (scalar == JSNum.fin 0,
   List.map (fun component => jsDiv component scalar) vector)

/-!  Helper lemmas about the association-list model of `Map`. -/

theorem find_map_replace (m : BodyMap) (k : Nat) (v : Body) :
    List.find? (fun p => p.1 == k)
        (List.map (fun p => if p.1 == k then (k, v) else p) m)
      = if List.any m (fun p => p.1 == k) then some (k, v) else none := by
  induction m with
  | nil => simp
  | cons p ps ih =>
    simp only [List.map_cons, List.any_cons]
    by_cases h : p.1 = k
    · have hb : (p.1 == k) = true := by simpa using h
      have hhead : (if (p.1 == k) = true then (k, v) else p) = (k, v) := by
        simp [h]
      rw [hhead, List.find?_cons_of_pos _ (by simp)]
      simp only [hb, Bool.true_or, if_true]
    · have hb : (p.1 == k) = false := by simpa using h
      have hhead : (if (p.1 == k) = true then (k, v) else p) = p := by
        simp [h]
      rw [hhead, List.find?_cons_of_neg _ (by simpa using h), ih]
      simp only [hb, Bool.false_or]

theorem mapFind_mapSet_self (m : BodyMap) (k : Nat) (v : Body) :
    mapFind (mapSet m k v) k = some v := by
  unfold mapFind mapSet
  by_cases h : List.any m (fun p => p.1 == k)
  · rw [if_pos h, find_map_replace, if_pos h]
    rfl
  · rw [if_neg h, List.find?_append]
    have hnone : List.find? (fun p => p.1 == k) m = none := by
      rw [List.find?_eq_none]
      intro p hp hk
      exact h (List.any_eq_true.mpr ⟨p, hp, hk⟩)
    simp [hnone, List.find?]

theorem find_map_replace_ne (m : BodyMap) (k k' : Nat) (v : Body)
    (hne : k' ≠ k) :
    List.find? (fun p => p.1 == k')
        (List.map (fun p => if p.1 == k then (k, v) else p) m)
      = List.find? (fun p => p.1 == k') m := by
  induction m with
  | nil => simp
  | cons p ps ih =>
    simp only [List.map_cons]
    by_cases h : p.1 = k
    · have hpk : ¬ p.1 = k' := by rw [h]; exact Ne.symm hne
      have hhead : (if (p.1 == k) = true then (k, v) else p) = (k, v) := by
        simp [h]
      rw [hhead, List.find?_cons_of_neg _ (by simpa using Ne.symm hne),
        List.find?_cons_of_neg _ (by simpa using hpk)]
      exact ih
    · have hhead : (if (p.1 == k) = true then (k, v) else p) = p := by
        simp [h]
      rw [hhead]
      by_cases h2 : p.1 = k'
      · rw [List.find?_cons_of_pos _ (by simpa using h2),
          List.find?_cons_of_pos _ (by simpa using h2)]
      · rw [List.find?_cons_of_neg _ (by simpa using h2),
          List.find?_cons_of_neg _ (by simpa using h2)]
        exact ih

theorem mapFind_mapSet_ne (m : BodyMap) (k k' : Nat) (v : Body)
    (hne : k' ≠ k) : mapFind (mapSet m k v) k' = mapFind m k' := by
  unfold mapFind mapSet
  by_cases h : List.any m (fun p => p.1 == k)
  · rw [if_pos h, find_map_replace_ne m k k' v hne]
  · rw [if_neg h, List.find?_append]
    have h1 : List.find? (fun p => p.1 == k') [(k, v)] = none := by
      rw [List.find?_cons_of_neg _ (by simpa using Ne.symm hne)]
      rfl
    rw [h1]
    cases hm : List.find? (fun p => p.1 == k') m <;> rfl

theorem mapFind_mapDelete_self (m : BodyMap) (k : Nat) :
    mapFind (mapDelete m k) k = none := by
  unfold mapFind mapDelete
  rw [Option.map_eq_none', List.find?_eq_none]
  intro p hp
  have := List.of_mem_filter hp
  simpa using this

theorem mapFind_mapDelete_none (m : BodyMap) (k k' : Nat)
    (h : mapFind m k = none) : mapFind (mapDelete m k') k = none := by
  unfold mapFind mapDelete
  unfold mapFind at h
  rw [Option.map_eq_none', List.find?_eq_none]
  rw [Option.map_eq_none', List.find?_eq_none] at h
  intro p hp
  exact h p (List.mem_of_mem_filter hp)

theorem mapFind_deleteFold_pending (coll : List Body) (bodies : BodyMap)
    (k : Nat) (h : mapFind bodies k = none) :
    mapFind (List.foldl (fun bs b => mapDelete bs b.id) bodies coll) k
      = none := by
  induction coll generalizing bodies with
  | nil => simpa using h
  | cons b bs ih =>
    simp only [List.foldl_cons]
    exact ih (mapDelete bodies b.id) (mapFind_mapDelete_none _ _ _ h)

theorem mapSet_keys_of_mem (m : BodyMap) (k : Nat) (v : Body)
    (h : List.any m (fun p => p.1 == k) = true) :
    List.map (fun p => p.1) (mapSet m k v) = List.map (fun p => p.1) m := by
  unfold mapSet
  rw [if_pos h, List.map_map]
  apply List.map_congr_left
  intro p _
  by_cases hk : p.1 = k
  · simp [hk]
  · simp [hk]

theorem mapFind_deleteFold_none (coll : List Body) (bodies : BodyMap)
    (k : Nat) (h : ∃ b ∈ coll, b.id = k) :
    mapFind (List.foldl (fun bs b => mapDelete bs b.id) bodies coll) k
      = none := by
  induction coll generalizing bodies with
  | nil => simp at h
  | cons b bs ih =>
    simp only [List.foldl_cons]
    rcases h with ⟨c, hc, hck⟩
    rcases List.mem_cons.mp hc with hcb | hcbs
    · subst hcb
      apply mapFind_deleteFold_pending
      rw [← hck]
      exact mapFind_mapDelete_self bodies c.id
    · exact ih (mapDelete bodies b.id) ⟨c, hcbs, hck⟩


/-!  Helper lemmas about the group folds and the centre of mass. -/

theorem foldl_add_shift (l : List Body) (f : Body → ℚ) (x : ℚ) :
    List.foldl (fun acc b => acc + f b) x l
      = x + List.foldl (fun acc b => acc + f b) 0 l := by
  induction l generalizing x with
  | nil => simp
  | cons b bs ih =>
    simp only [List.foldl_cons]
    rw [ih (x + f b), ih (0 + f b)]
    ring

theorem vadd_zero_left (y : Vec2) : vadd (0, 0) y = y := by
  unfold vadd
  simp

theorem foldl_vadd_shift (l : List Body) (f : Body → Vec2) (x : Vec2) :
    List.foldl (fun acc b => vadd acc (f b)) x l
      = vadd x (List.foldl (fun acc b => vadd acc (f b)) (0, 0) l) := by
  induction l generalizing x with
  | nil =>
    simp only [List.foldl_nil]
    unfold vadd
    simp
  | cons b bs ih =>
    simp only [List.foldl_cons]
    rw [ih (vadd x (f b)), ih (vadd (0, 0) (f b))]
    unfold vadd
    apply Prod.ext <;> simp <;> ring

theorem totalMass_cons (b : Body) (bs : List Body) :
    totalMass (b :: bs) = b.m + totalMass bs := by
  unfold totalMass
  simp only [List.foldl_cons, zero_add]
  exact foldl_add_shift bs (fun b => b.m) b.m

theorem posMomentSum_cons (b : Body) (bs : List Body) :
    posMomentSum (b :: bs) = vadd (vmul b.pos b.m) (posMomentSum bs) := by
  unfold posMomentSum
  simp only [List.foldl_cons]
  rw [vadd_zero_left]
  exact foldl_vadd_shift bs (fun b => vmul b.pos b.m) (vmul b.pos b.m)

theorem momentumSum_cons (b : Body) (bs : List Body) :
    momentumSum (b :: bs) = vadd (vmul b.vel b.m) (momentumSum bs) := by
  unfold momentumSum
  simp only [List.foldl_cons]
  rw [vadd_zero_left]
  exact foldl_vadd_shift bs (fun b => vmul b.vel b.m) (vmul b.vel b.m)

theorem centerOfMass_eq (coll : List Body) (hne : coll ≠ [])
    (hm : totalMass coll ≠ 0) :
    centerOfMass coll = vdiv (posMomentSum coll) (totalMass coll) := by
  match coll with
  | [] => exact absurd rfl hne
  | [b] =>
    have hb : b.m ≠ 0 := by
      simpa [totalMass_cons, totalMass] using hm
    show b.pos = vdiv (posMomentSum [b]) (totalMass [b])
    have h1 : posMomentSum [b] = vmul b.pos b.m := by
      rw [posMomentSum_cons]
      unfold posMomentSum
      simp only [List.foldl_nil]
      unfold vadd vmul
      simp
    have h2 : totalMass [b] = b.m := by
      rw [totalMass_cons]
      unfold totalMass
      simp
    rw [h1, h2]
    unfold vdiv vmul
    apply Prod.ext <;> simp <;>
      rw [mul_div_assoc, div_self hb, mul_one]
  | b1 :: b2 :: bs =>
    show vdiv
        (List.foldl (fun acc b => vadd acc (vmul b.pos b.m))
          (vmul b1.pos b1.m) (b2 :: bs))
        (List.foldl (fun acc b => acc + b.m) b1.m (b2 :: bs))
      = vdiv (posMomentSum (b1 :: b2 :: bs)) (totalMass (b1 :: b2 :: bs))
    have h1 : posMomentSum (b1 :: b2 :: bs)
        = List.foldl (fun acc b => vadd acc (vmul b.pos b.m))
            (vmul b1.pos b1.m) (b2 :: bs) := by
      unfold posMomentSum
      simp only [List.foldl_cons]
      rw [vadd_zero_left]
    have h2 : totalMass (b1 :: b2 :: bs)
        = List.foldl (fun acc b => acc + b.m) b1.m (b2 :: bs) := by
      unfold totalMass
      simp only [List.foldl_cons, zero_add]
    rw [h1, h2]

theorem find?_isSome_eq_any (l : List Body) (p : Body → Bool) :
    (List.find? p l).isSome = l.any p := by
  induction l with
  | nil => rfl
  | cons b bs ih =>
    by_cases h : p b
    · rw [List.find?_cons_of_pos _ h]
      simp [h]
    · rw [List.find?_cons_of_neg _ h]
      simp [h, ih]

/-!  Reduction lemmas for the two branches of the pair evaluation. -/

theorem processPair_gravity (sq : ℚ → ℚ) (st : LoopState) (k k2 : Nat)
    (b1 b2 : Body)
    (h1 : mapFind st.bodies k = some b1)
    (h2 : mapFind st.bodies k2 = some b2)
    (hnc : ¬ (sq (magSq (vsub b2.pos b1.pos)) * DISTANCE_SCALE
        < (b1.r + b2.r) * 400)) :
    (processPair sq st k k2).bodies
      = mapSet
          (mapSet st.bodies k
            (if b1.isStatic = false then
              { b1 with acc := vadd b1.acc (vmul (vdiv (vsub b2.pos b1.pos)
                  (magSq (vsub b2.pos b1.pos)
                    * (sq (magSq (vsub b2.pos b1.pos)) * DISTANCE_SCALE)))
                  b2.m) }
             else b1))
          k2
          (if b2.isStatic = false then
            { b2 with acc := vsub b2.acc (vmul (vdiv (vsub b2.pos b1.pos)
                (magSq (vsub b2.pos b1.pos)
                  * (sq (magSq (vsub b2.pos b1.pos)) * DISTANCE_SCALE)))
                b1.m) }
           else b2)
    ∧ (processPair sq st k k2).collisions = st.collisions
    ∧ (processPair sq st k k2).collidedIds = st.collidedIds := by
  refine ⟨?_, ?_, ?_⟩ <;>
    · simp only [processPair, h1, h2]
      rw [if_neg hnc]

theorem processPair_collide (sq : ℚ → ℚ) (st : LoopState) (k k2 : Nat)
    (b1 b2 : Body)
    (h1 : mapFind st.bodies k = some b1)
    (h2 : mapFind st.bodies k2 = some b2)
    (hc : sq (magSq (vsub b2.pos b1.pos)) * DISTANCE_SCALE
        < (b1.r + b2.r) * 400) :
    (processPair sq st k k2).bodies = st.bodies
    ∧ (processPair sq st k k2).collisions
        = addCollision st.collisions b1 b2
    ∧ (processPair sq st k k2).collidedIds
        = st.collidedIds ++ [b1.id, b2.id] := by
  refine ⟨?_, ?_, ?_⟩ <;>
    · simp only [processPair, h1, h2]
      rw [if_pos hc]

/-- The acceleration factor as the spec words it (for comparison with
the code): `accelerationFactor = r / (magnitudeSquared(r) * magnitude(r))`,
with no occurrence of `DISTANCE_SCALE`. -/
def specAccelerationFactor (r : Vec2) (mag : ℚ) : Vec2 :=
  vdiv r (magSq r * mag)

/-- C1: counterexample.  Two non-static unit-mass bodies at (0,0) and
(1,0) with radius 1 do not collide (scaled distance 6500 ≥ 800), and the
force pass gives body 0 the acceleration increment (1/6500, 0), whereas
the factor claimed by the spec, `r / (magnitudeSquared(r) * magnitude(r))`
times the other mass, is (1, 0): the code divides by `DISTANCE_SCALE`
inside the physical force value, so the claim is false. -/
theorem C1_scale_in_force_counterexample :
    mapFind ((processPair ratSqrt
        ⟨[(0, ⟨0, (0, 0), (0, 0), (0, 0), 1, 1, false⟩),
          (1, ⟨1, (1, 0), (0, 0), (0, 0), 1, 1, false⟩)], [], []⟩
        0 1).bodies) 0
      = some ⟨0, (0, 0), (0, 0), (1/6500, 0), 1, 1, false⟩
    ∧ vmul (specAccelerationFactor
        (vsub ((1 : ℚ), (0 : ℚ)) ((0 : ℚ), (0 : ℚ)))
        (ratSqrt (magSq (vsub ((1 : ℚ), (0 : ℚ)) ((0 : ℚ), (0 : ℚ)))))) 1
      = ((1 : ℚ), (0 : ℚ))
    ∧ (((1 : ℚ)/6500, (0 : ℚ)) : Vec2) ≠ (((1 : ℚ), (0 : ℚ)) : Vec2) := by
  refine ⟨by decide, by decide, by decide⟩

/-- C1 (amended): for an evaluated non-colliding pair the acceleration
increment on each non-static body is `accFactor * otherMass` with
`accFactor = r / (magnitudeSquared(r) * (magnitude(r) * DISTANCE_SCALE))`:
the calibration constant `DISTANCE_SCALE` divides the physical force
value in addition to entering the collision-threshold comparison. -/
theorem C1_accFactor_amended (sq : ℚ → ℚ) (st : LoopState) (k k2 : Nat)
    (b1 b2 : Body) (hk : k ≠ k2)
    (h1 : mapFind st.bodies k = some b1)
    (h2 : mapFind st.bodies k2 = some b2)
    (hsq : IsSqrtAt sq (magSq (vsub b2.pos b1.pos)))
    (hnc : ¬ (sq (magSq (vsub b2.pos b1.pos)) * DISTANCE_SCALE
        < (b1.r + b2.r) * 400)) :
    (b1.isStatic = false →
      mapFind ((processPair sq st k k2).bodies) k = some
        { b1 with acc := vadd b1.acc (vmul (vdiv (vsub b2.pos b1.pos)
            (magSq (vsub b2.pos b1.pos)
              * (sq (magSq (vsub b2.pos b1.pos)) * DISTANCE_SCALE)))
            b2.m) })
    ∧ (b2.isStatic = false →
      mapFind ((processPair sq st k k2).bodies) k2 = some
        { b2 with acc := vsub b2.acc (vmul (vdiv (vsub b2.pos b1.pos)
            (magSq (vsub b2.pos b1.pos)
              * (sq (magSq (vsub b2.pos b1.pos)) * DISTANCE_SCALE)))
            b1.m) }) := by
  have hred := processPair_gravity sq st k k2 b1 b2 h1 h2 hnc
  constructor
  · intro hstat
    rw [hred.1, mapFind_mapSet_ne _ _ _ _ hk, mapFind_mapSet_self,
      if_pos hstat]
  · intro hstat
    rw [hred.1, mapFind_mapSet_self, if_pos hstat]

/-- C1 (amended) witness: the concrete pair of the counterexample,
instantiating the amended theorem at `ratSqrt`. -/
theorem C1_accFactor_amended_witness :
    mapFind ((processPair ratSqrt
        ⟨[(0, ⟨0, (0, 0), (0, 0), (0, 0), 1, 1, false⟩),
          (1, ⟨1, (1, 0), (0, 0), (0, 0), 1, 1, false⟩)], [], []⟩
        0 1).bodies) 0
      = some ⟨0, (0, 0), (0, 0), (1/6500, 0), 1, 1, false⟩ := by
  have h := (C1_accFactor_amended ratSqrt
      ⟨[(0, ⟨0, (0, 0), (0, 0), (0, 0), 1, 1, false⟩),
        (1, ⟨1, (1, 0), (0, 0), (0, 0), 1, 1, false⟩)], [], []⟩
      0 1
      ⟨0, (0, 0), (0, 0), (0, 0), 1, 1, false⟩
      ⟨1, (1, 0), (0, 0), (0, 0), 1, 1, false⟩
      (by decide) (by decide) (by decide)
      ⟨by decide, by decide⟩ (by decide)).1 rfl
  rw [h]
  decide

/-- C5: for an evaluated pair of live bodies the pair is flagged as
colliding (its two ids are appended to the collided-id list) exactly
when the scaled distance `magnitude(r) * DISTANCE_SCALE` is strictly
below `(radius(b1) + radius(b2)) * 400`; at exact equality the pair is
not flagged and receives the gravitational acceleration update
instead. -/
theorem C5_collision_threshold_strict (sq : ℚ → ℚ) (st : LoopState)
    (k k2 : Nat) (b1 b2 : Body) (hk : k ≠ k2)
    (h1 : mapFind st.bodies k = some b1)
    (h2 : mapFind st.bodies k2 = some b2)
    (hsq : IsSqrtAt sq (magSq (vsub b2.pos b1.pos))) :
    ((processPair sq st k k2).collidedIds ≠ st.collidedIds
      ↔ sq (magSq (vsub b2.pos b1.pos)) * DISTANCE_SCALE
          < (b1.r + b2.r) * 400)
    ∧ (sq (magSq (vsub b2.pos b1.pos)) * DISTANCE_SCALE
          = (b1.r + b2.r) * 400 →
        (processPair sq st k k2).collidedIds = st.collidedIds
        ∧ (b1.isStatic = false →
            mapFind ((processPair sq st k k2).bodies) k = some
              { b1 with acc := vadd b1.acc (vmul (vdiv (vsub b2.pos b1.pos)
                  (magSq (vsub b2.pos b1.pos)
                    * (sq (magSq (vsub b2.pos b1.pos)) * DISTANCE_SCALE)))
                  b2.m) })) := by
  by_cases hc : sq (magSq (vsub b2.pos b1.pos)) * DISTANCE_SCALE
      < (b1.r + b2.r) * 400
  · have hred := processPair_collide sq st k k2 b1 b2 h1 h2 hc
    refine ⟨⟨fun _ => hc, fun _ => ?_⟩, fun heq => ?_⟩
    · rw [hred.2.2]
      intro heq
      have hlen := congrArg List.length heq
      simp at hlen
    · rw [heq] at hc
      exact absurd hc (lt_irrefl _)
  · have hred := processPair_gravity sq st k k2 b1 b2 h1 h2 hc
    refine ⟨⟨fun hne => absurd hred.2.2 hne, fun hlt => absurd hlt hc⟩,
      fun _ => ⟨hred.2.2, fun hstat => ?_⟩⟩
    rw [hred.1, mapFind_mapSet_ne _ _ _ _ hk, mapFind_mapSet_self,
      if_pos hstat]

/-- C5 witness: a pair exactly at the collision boundary (magnitude 4,
radii 65/2 each: scaled distance 26000 = threshold) is not flagged and
body 0 receives the gravitational increment (1/104000, 0). -/
theorem C5_collision_threshold_strict_witness :
    (processPair ratSqrt
        ⟨[(0, ⟨0, (0, 0), (0, 0), (0, 0), 1, 65/2, false⟩),
          (1, ⟨1, (4, 0), (0, 0), (0, 0), 1, 65/2, false⟩)], [], []⟩
        0 1).collidedIds = []
    ∧ mapFind ((processPair ratSqrt
        ⟨[(0, ⟨0, (0, 0), (0, 0), (0, 0), 1, 65/2, false⟩),
          (1, ⟨1, (4, 0), (0, 0), (0, 0), 1, 65/2, false⟩)], [], []⟩
        0 1).bodies) 0
      = some ⟨0, (0, 0), (0, 0), (1/104000, 0), 1, 65/2, false⟩ := by
  have h := (C5_collision_threshold_strict ratSqrt
      ⟨[(0, ⟨0, (0, 0), (0, 0), (0, 0), 1, 65/2, false⟩),
        (1, ⟨1, (4, 0), (0, 0), (0, 0), 1, 65/2, false⟩)], [], []⟩
      0 1
      ⟨0, (0, 0), (0, 0), (0, 0), 1, 65/2, false⟩
      ⟨1, (4, 0), (0, 0), (0, 0), 1, 65/2, false⟩
      (by decide) (by decide) (by decide)
      ⟨by decide, by decide⟩).2 (by decide)
  refine ⟨h.1, ?_⟩
  rw [h.2 rfl]
  decide

/-- C10: a pair flagged as colliding leaves the body map of the loop
state, hence both bodies' acceleration fields, unchanged: no
gravitational acceleration is accumulated for a colliding pair. -/
theorem C10_colliding_pair_acc_unchanged (sq : ℚ → ℚ) (st : LoopState)
    (k k2 : Nat) (b1 b2 : Body)
    (h1 : mapFind st.bodies k = some b1)
    (h2 : mapFind st.bodies k2 = some b2)
    (hc : sq (magSq (vsub b2.pos b1.pos)) * DISTANCE_SCALE
        < (b1.r + b2.r) * 400) :
    (processPair sq st k k2).bodies = st.bodies :=
  (processPair_collide sq st k k2 b1 b2 h1 h2 hc).1

/-- C10 witness: two coincident unit-radius bodies collide and the
body map is untouched by their pair evaluation. -/
theorem C10_colliding_pair_acc_unchanged_witness :
    (processPair ratSqrt
        ⟨[(0, ⟨0, (0, 0), (1, 0), (0, 0), 1, 1, false⟩),
          (1, ⟨1, (0, 0), (0, 1), (0, 0), 1, 1, false⟩)], [], []⟩
        0 1).bodies
      = [(0, ⟨0, (0, 0), (1, 0), (0, 0), 1, 1, false⟩),
         (1, ⟨1, (0, 0), (0, 1), (0, 0), 1, 1, false⟩)] :=
  C10_colliding_pair_acc_unchanged ratSqrt
    ⟨[(0, ⟨0, (0, 0), (1, 0), (0, 0), 1, 1, false⟩),
      (1, ⟨1, (0, 0), (0, 1), (0, 0), 1, 1, false⟩)], [], []⟩
    0 1
    ⟨0, (0, 0), (1, 0), (0, 0), 1, 1, false⟩
    ⟨1, (0, 0), (0, 1), (0, 0), 1, 1, false⟩
    (by decide) (by decide) (by decide)

/-- C8: counterexample.  For the non-colliding pair with body 0 static
(mass 1) and body 1 movable (mass 1) at distance 1, body 0's
acceleration increment is zero while body 1 receives (-1/6500, 0), so
`Δacc(b1) * m(b1) = -(Δacc(b2) * m(b2))` fails: the claim quantifies
over all evaluated non-colliding pairs, including static ones. -/
theorem C8_static_symmetry_counterexample :
    mapFind ((processPair ratSqrt
        ⟨[(0, ⟨0, (0, 0), (0, 0), (0, 0), 1, 1, true⟩),
          (1, ⟨1, (1, 0), (0, 0), (0, 0), 1, 1, false⟩)], [], []⟩
        0 1).bodies) 0
      = some ⟨0, (0, 0), (0, 0), (0, 0), 1, 1, true⟩
    ∧ mapFind ((processPair ratSqrt
        ⟨[(0, ⟨0, (0, 0), (0, 0), (0, 0), 1, 1, true⟩),
          (1, ⟨1, (1, 0), (0, 0), (0, 0), 1, 1, false⟩)], [], []⟩
        0 1).bodies) 1
      = some ⟨1, (1, 0), (0, 0), (-1/6500, 0), 1, 1, false⟩
    ∧ vmul (vsub ((0 : ℚ), (0 : ℚ)) ((0 : ℚ), (0 : ℚ))) 1
        ≠ vneg (vmul (vsub ((-1/6500 : ℚ), (0 : ℚ)) ((0 : ℚ), (0 : ℚ))) 1) := by
  refine ⟨by decide, by decide, by decide⟩

/-- C8 (amended): for an evaluated non-colliding pair of NON-STATIC
bodies the acceleration increments satisfy Newton's-third-law symmetry
`Δacc(b1) * m(b1) = -(Δacc(b2) * m(b2))` with the factor evaluated once
per pair (a static body receives no increment, so the identity fails
when exactly one body is static). -/
theorem C8_symmetry_amended (sq : ℚ → ℚ) (st : LoopState)
    (k k2 : Nat) (b1 b2 : Body) (hk : k ≠ k2)
    (h1 : mapFind st.bodies k = some b1)
    (h2 : mapFind st.bodies k2 = some b2)
    (hs1 : b1.isStatic = false) (hs2 : b2.isStatic = false)
    (hnc : ¬ (sq (magSq (vsub b2.pos b1.pos)) * DISTANCE_SCALE
        < (b1.r + b2.r) * 400))
    (b1' b2' : Body)
    (hb1 : mapFind ((processPair sq st k k2).bodies) k = some b1')
    (hb2 : mapFind ((processPair sq st k k2).bodies) k2 = some b2') :
    vmul (vsub b1'.acc b1.acc) b1.m
      = vneg (vmul (vsub b2'.acc b2.acc) b2.m) := by
  have hred := processPair_gravity sq st k k2 b1 b2 h1 h2 hnc
  rw [hred.1, mapFind_mapSet_ne _ _ _ _ hk, mapFind_mapSet_self,
    if_pos hs1] at hb1
  rw [hred.1, mapFind_mapSet_self, if_pos hs2] at hb2
  injection hb1 with hb1
  injection hb2 with hb2
  rw [← hb1, ← hb2]
  simp only [vmul, vsub, vadd, vneg, vdiv]
  apply Prod.ext <;> simp <;> ring

/-- C8 (amended) witness: the two non-static unit-mass bodies at
distance 1, where both increments are (±1/6500, 0). -/
theorem C8_symmetry_amended_witness :
    vmul (vsub ((1/6500 : ℚ), (0 : ℚ)) ((0 : ℚ), (0 : ℚ))) 1
      = vneg (vmul (vsub ((-1/6500 : ℚ), (0 : ℚ)) ((0 : ℚ), (0 : ℚ))) 1) := by
  have h := C8_symmetry_amended ratSqrt
      ⟨[(0, ⟨0, (0, 0), (0, 0), (0, 0), 1, 1, false⟩),
        (1, ⟨1, (1, 0), (0, 0), (0, 0), 1, 1, false⟩)], [], []⟩
      0 1
      ⟨0, (0, 0), (0, 0), (0, 0), 1, 1, false⟩
      ⟨1, (1, 0), (0, 0), (0, 0), 1, 1, false⟩
      (by decide) (by decide) (by decide) rfl rfl (by decide)
      ⟨0, (0, 0), (0, 0), (1/6500, 0), 1, 1, false⟩
      ⟨1, (1, 0), (0, 0), (-1/6500, 0), 1, 1, false⟩
      (by decide) (by decide)
  exact h

/-- C3: counterexample.  Three coincident bodies (ids 0, 1, 2) collide
pairwise; the pair loop produces the single group [0, 1, 2, 2] in which
body 2 appears twice: the pair (1, 2) finds the group through body 1
and pushes body 2 again, so the claimed union-find semantics (at most
one occurrence in at most one group) fails. -/
theorem C3_duplicate_in_group_counterexample :
    ¬ (∀ c ∈ (pairLoop ratSqrt
        ⟨[(0, ⟨0, (0, 0), (0, 0), (0, 0), 1, 1, false⟩),
          (1, ⟨1, (0, 0), (0, 0), (0, 0), 1, 1, false⟩),
          (2, ⟨2, (0, 0), (0, 0), (0, 0), 1, 1, false⟩)], [], []⟩
        [0, 1, 2]).collisions,
        (List.map (fun b => b.id) c).Nodup) := by
  decide

/-- C3 (amended): the group step guarantees only that each newly
colliding pair is recorded together in some group: the first existing
group holding either body (the other body is appended, possibly as a
duplicate), or a fresh two-element group.  Distinct existing groups
are never united, and a body already in the found group can be
appended again. -/
theorem C3_pair_grouped_amended (cols : List (List Body)) (b1 b2 : Body) :
    ∃ c ∈ addCollision cols b1 b2,
      List.any c (fun b => bodyEq b b1) = true
      ∧ List.any c (fun b => bodyEq b b2) = true := by
  induction cols with
  | nil =>
    refine ⟨[b1, b2], by simp [addCollision], ?_, ?_⟩
    · simp [bodyEq]
    · simp [bodyEq]
  | cons c cs ih =>
    by_cases h : List.any c (fun b => bodyEq b b1 || bodyEq b b2) = true
    · simp only [addCollision]
      rw [if_pos h]
      by_cases h1 : List.any c (fun b => bodyEq b b1) = true
      · rw [if_pos h1]
        refine ⟨c ++ [b2], List.mem_cons_self _ _, ?_, ?_⟩
        · rw [List.any_append]
          simp [h1]
        · rw [List.any_append]
          simp [bodyEq]
      · rw [if_neg h1]
        have h2 : List.any c (fun b => bodyEq b b2) = true := by
          rcases List.any_eq_true.mp h with ⟨b, hb, hor⟩
          rcases Bool.or_eq_true_iff.mp hor with hl | hr
          · exact absurd (List.any_eq_true.mpr ⟨b, hb, hl⟩) h1
          · exact List.any_eq_true.mpr ⟨b, hb, hr⟩
        rw [if_pos h2]
        refine ⟨c ++ [b1], List.mem_cons_self _ _, ?_, ?_⟩
        · rw [List.any_append]
          simp [bodyEq]
        · rw [List.any_append]
          simp [h2]
    · simp only [addCollision]
      rw [if_neg h]
      rcases ih with ⟨c', hc', hx, hy⟩
      exact ⟨c', List.mem_cons_of_mem _ hc', hx, hy⟩

/-- C4: counterexample.  `div` of n-dim-vector.js applied to the
vector (1, -2, 0) and scalar 0 logs the divide-by-zero console error
(flag `true`) but still returns the componentwise quotient
(Infinity, -Infinity, NaN): it does not fail, and it does return a
vector with infinite and NaN components. -/
theorem C4_div_zero_counterexample :
    nvDiv [JSNum.fin 1, JSNum.fin (-2), JSNum.fin 0] (JSNum.fin 0)
      = (true, [JSNum.posInf, JSNum.negInf, JSNum.nan]) := by
  decide

/-- C4 (amended): dividing any vector of finite components by the
scalar 0 reports the error through the console log (modelled by the
returned flag) and returns the componentwise quotient, every component
of which is Infinity, -Infinity or NaN; no failure is raised. -/
theorem C4_div_zero_amended (v : List JSNum)
    (h : ∀ c ∈ v, jsFinite c = true) :
    (nvDiv v (JSNum.fin 0)).1 = true
    ∧ ∀ c ∈ (nvDiv v (JSNum.fin 0)).2, jsFinite c = false := by
  refine ⟨rfl, ?_⟩
  intro c hc
  rcases List.mem_map.mp hc with ⟨a, ha, rfl⟩
  match a, h a ha with
  | JSNum.fin q, _ =>
    simp only [jsDiv, if_pos rfl]
    split_ifs <;> rfl

/-- C4 (amended) witness: the vector (3, -5). -/
theorem C4_div_zero_amended_witness :
    (nvDiv [JSNum.fin 3, JSNum.fin (-5)] (JSNum.fin 0)).1 = true
    ∧ ∀ c ∈ (nvDiv [JSNum.fin 3, JSNum.fin (-5)] (JSNum.fin 0)).2,
        jsFinite c = false :=
  C4_div_zero_amended [JSNum.fin 3, JSNum.fin (-5)] (by decide)

/-- C9: counterexample.  `addBody` with a body whose id (1) is already
live silently replaces the stored body (JS `Map.set` semantics): the
call returns normally with the old body dropped, so no
programming-contract failure is surfaced. -/
theorem C9_duplicate_id_counterexample :
    addBody [(1, ⟨1, (0, 0), (0, 0), (0, 0), 1, 1, false⟩)]
        ⟨1, (2, 0), (0, 0), (0, 0), 2, 1, false⟩
      = [(1, ⟨1, (2, 0), (0, 0), (0, 0), 2, 1, false⟩)] := by
  decide

/-- C9 (amended): `addBody` with a duplicate id silently replaces the
previous body rather than failing; the at-most-one-live-body-per-id
invariant is nonetheless preserved, and afterwards the id maps to the
newly added body. -/
theorem C9_addBody_amended (m : BodyMap) (b : Body)
    (h : (List.map (fun p => p.1) m).Nodup) :
    (List.map (fun p => p.1) (addBody m b)).Nodup
    ∧ mapFind (addBody m b) b.id = some b := by
  constructor
  · unfold addBody
    by_cases hmem : List.any m (fun p => p.1 == b.id) = true
    · rw [mapSet_keys_of_mem m b.id b hmem]
      exact h
    · unfold mapSet
      rw [if_neg hmem, List.map_append, List.nodup_append]
      refine ⟨h, by simp, ?_⟩
      intro a ha hb
      simp only [List.map_cons, List.map_nil, List.mem_singleton] at hb
      subst hb
      rcases List.mem_map.mp ha with ⟨p, hp, hpa⟩
      exact hmem (List.any_eq_true.mpr ⟨p, hp, by simpa using hpa⟩)
  · exact mapFind_mapSet_self m b.id b

/-- C9 (amended) witness: adding a body with fresh id 2 to a one-body
map keeps the key list duplicate-free and stores the body. -/
theorem C9_addBody_amended_witness :
    (List.map (fun p => p.1)
        (addBody [(1, ⟨1, (0, 0), (0, 0), (0, 0), 1, 1, false⟩)]
          ⟨2, (2, 0), (0, 0), (0, 0), 2, 1, false⟩)).Nodup
    ∧ mapFind (addBody [(1, ⟨1, (0, 0), (0, 0), (0, 0), 1, 1, false⟩)]
          ⟨2, (2, 0), (0, 0), (0, 0), 2, 1, false⟩) 2
        = some ⟨2, (2, 0), (0, 0), (0, 0), 2, 1, false⟩ :=
  C9_addBody_amended [(1, ⟨1, (0, 0), (0, 0), (0, 0), 1, 1, false⟩)]
    ⟨2, (2, 0), (0, 0), (0, 0), 2, 1, false⟩ (by decide)

/-- C6: resolving a collision group removes every member id from the
live set and inserts exactly one new body, the merge product, under
the fresh id (which differs from every member id). -/
theorem C6_merge_replaces_members (maxMass : ℚ) (radiusOf : ℚ → ℚ)
    (nextId : Nat) (bodies : BodyMap) (coll : List Body)
    (hfresh : ∀ b ∈ coll, b.id ≠ nextId) :
    mapFind (resolveGroup maxMass radiusOf nextId bodies coll) nextId
      = some (mkBody maxMass radiusOf nextId (totalMass coll)
          (if (List.find? (fun b => b.isStatic) coll).isSome then (0, 0)
           else centerOfMass coll)
          (if (List.find? (fun b => b.isStatic) coll).isSome then (0, 0)
           else nCollisionMomentum coll)
          ((List.find? (fun b => b.isStatic) coll).isSome))
    ∧ ∀ b ∈ coll,
        mapFind (resolveGroup maxMass radiusOf nextId bodies coll) b.id
          = none := by
  constructor
  · simp only [resolveGroup, mkBody]
    exact mapFind_mapSet_self _ _ _
  · intro b hb
    simp only [resolveGroup, mkBody]
    rw [mapFind_mapSet_ne _ _ _ _ (hfresh b hb)]
    exact mapFind_deleteFold_none coll bodies b.id ⟨b, hb, rfl⟩

/-- C6 witness: a two-body group (ids 0 and 1) resolved with fresh id
5: both member ids are gone and id 5 holds the merge product. -/
theorem C6_merge_replaces_members_witness :
    mapFind (resolveGroup 100 (fun q => q) 5
        [(0, ⟨0, (0, 0), (0, 0), (0, 0), 1, 1, false⟩),
         (1, ⟨1, (2, 0), (0, 0), (0, 0), 1, 1, false⟩)]
        [⟨0, (0, 0), (0, 0), (0, 0), 1, 1, false⟩,
         ⟨1, (2, 0), (0, 0), (0, 0), 1, 1, false⟩]) 0 = none
    ∧ mapFind (resolveGroup 100 (fun q => q) 5
        [(0, ⟨0, (0, 0), (0, 0), (0, 0), 1, 1, false⟩),
         (1, ⟨1, (2, 0), (0, 0), (0, 0), 1, 1, false⟩)]
        [⟨0, (0, 0), (0, 0), (0, 0), 1, 1, false⟩,
         ⟨1, (2, 0), (0, 0), (0, 0), 1, 1, false⟩]) 1 = none
    ∧ (mapFind (resolveGroup 100 (fun q => q) 5
        [(0, ⟨0, (0, 0), (0, 0), (0, 0), 1, 1, false⟩),
         (1, ⟨1, (2, 0), (0, 0), (0, 0), 1, 1, false⟩)]
        [⟨0, (0, 0), (0, 0), (0, 0), 1, 1, false⟩,
         ⟨1, (2, 0), (0, 0), (0, 0), 1, 1, false⟩]) 5).isSome = true := by
  have h := C6_merge_replaces_members 100 (fun q => q) 5
      [(0, ⟨0, (0, 0), (0, 0), (0, 0), 1, 1, false⟩),
       (1, ⟨1, (2, 0), (0, 0), (0, 0), 1, 1, false⟩)]
      [⟨0, (0, 0), (0, 0), (0, 0), 1, 1, false⟩,
       ⟨1, (2, 0), (0, 0), (0, 0), 1, 1, false⟩]
      (by decide)
  refine ⟨h.2 ⟨0, (0, 0), (0, 0), (0, 0), 1, 1, false⟩ (by decide),
    h.2 ⟨1, (2, 0), (0, 0), (0, 0), 1, 1, false⟩ (by decide), ?_⟩
  rw [h.1]
  rfl

/-- C7: the merge product of a group with a static member is static
with position at the world origin and zero velocity; for a group with
no static member its position is the mass-weighted centroid
`Σ(m_i * pos_i) / Σ(m_i)` and its velocity the momentum-conserving
combination `Σ(m_i * vel_i) / Σ(m_i)`. -/
theorem C7_merge_kinematics (maxMass : ℚ) (radiusOf : ℚ → ℚ)
    (nextId : Nat) (bodies : BodyMap) (coll : List Body) (nb : Body)
    (hne : coll ≠ []) (hm : totalMass coll ≠ 0)
    (hnb : mapFind (resolveGroup maxMass radiusOf nextId bodies coll)
        nextId = some nb) :
    nb.isStatic = List.any coll (fun b => b.isStatic)
    ∧ nb.pos = (if List.any coll (fun b => b.isStatic) = true
        then ((0 : ℚ), (0 : ℚ))
        else vdiv (posMomentSum coll) (totalMass coll))
    ∧ nb.vel = (if List.any coll (fun b => b.isStatic) = true
        then ((0 : ℚ), (0 : ℚ))
        else vdiv (momentumSum coll) (totalMass coll)) := by
  have hself : mapFind (resolveGroup maxMass radiusOf nextId bodies coll)
      nextId
      = some (mkBody maxMass radiusOf nextId (totalMass coll)
          (if (List.find? (fun b => b.isStatic) coll).isSome then (0, 0)
           else centerOfMass coll)
          (if (List.find? (fun b => b.isStatic) coll).isSome then (0, 0)
           else nCollisionMomentum coll)
          ((List.find? (fun b => b.isStatic) coll).isSome)) := by
    simp only [resolveGroup, mkBody]
    exact mapFind_mapSet_self _ _ _
  rw [hself] at hnb
  injection hnb with hnb
  subst hnb
  refine ⟨?_, ?_, ?_⟩
  · simp only [mkBody]
    exact find?_isSome_eq_any coll _
  · simp only [mkBody, find?_isSome_eq_any coll (fun b => b.isStatic)]
    by_cases hs : List.any coll (fun b => b.isStatic) = true
    · rw [if_pos hs, if_pos hs]
    · rw [if_neg hs, if_neg hs]
      exact centerOfMass_eq coll hne hm
  · simp only [mkBody, find?_isSome_eq_any coll (fun b => b.isStatic)]
    by_cases hs : List.any coll (fun b => b.isStatic) = true
    · rw [if_pos hs, if_pos hs]
    · rw [if_neg hs, if_neg hs]
      rfl

/-- C7 witness: a static-plus-movable group gives a static product at
the origin, and a two-movable-body group gives the centroid and the
momentum-conserving velocity. -/
theorem C7_merge_kinematics_witness :
    ((⟨7, (0, 0), (0, 0), (0, 0), 3, 3, true⟩ : Body).isStatic = true
      ∧ (⟨7, (0, 0), (0, 0), (0, 0), 3, 3, true⟩ : Body).pos
          = ((0 : ℚ), (0 : ℚ)))
    ∧ (⟨6, (3/2, 0), (1/4, 3/2), (0, 0), 4, 4, false⟩ : Body).pos
        = vdiv (posMomentSum
            [⟨0, (0, 0), (1, 0), (0, 0), 1, 1, false⟩,
             ⟨1, (2, 0), (0, 2), (0, 0), 3, 3, false⟩])
          (totalMass
            [⟨0, (0, 0), (1, 0), (0, 0), 1, 1, false⟩,
             ⟨1, (2, 0), (0, 2), (0, 0), 3, 3, false⟩]) := by
  have hstat := C7_merge_kinematics 100 (fun q => q) 7
      [(0, ⟨0, (1, 0), (0, 0), (0, 0), 2, 2, true⟩),
       (1, ⟨1, (3, 0), (1, 0), (0, 0), 1, 1, false⟩)]
      [⟨0, (1, 0), (0, 0), (0, 0), 2, 2, true⟩,
       ⟨1, (3, 0), (1, 0), (0, 0), 1, 1, false⟩]
      ⟨7, (0, 0), (0, 0), (0, 0), 3, 3, true⟩
      (by decide) (by decide) (by decide)
  have hmov := C7_merge_kinematics 100 (fun q => q) 6
      [(0, ⟨0, (0, 0), (1, 0), (0, 0), 1, 1, false⟩),
       (1, ⟨1, (2, 0), (0, 2), (0, 0), 3, 3, false⟩)]
      [⟨0, (0, 0), (1, 0), (0, 0), 1, 1, false⟩,
       ⟨1, (2, 0), (0, 2), (0, 0), 3, 3, false⟩]
      ⟨6, (3/2, 0), (1/4, 3/2), (0, 0), 4, 4, false⟩
      (by decide) (by decide) (by decide)
  exact ⟨⟨hstat.1.trans (by decide), hstat.2.1.trans (if_pos (by decide))⟩,
    hmov.2.1.trans (if_neg (by decide))⟩

/-- C2: counterexample.  With the spec-mandated `MAX_MASS` clamp in
the body constructor (here instantiated at MAX_MASS = 1), a group of
two bodies of mass 1 each produces a merge product of mass
min(2, MAX_MASS) = 1, while the member masses sum to 2: the product
mass is not the exact sum, and mass is lost whenever the sum exceeds
the clamp (two members of mass MAX_MASS always exceed it). -/
theorem C2_mass_clamp_counterexample :
    (mapFind (resolveGroup 1 (fun q => q) 5
        [(0, ⟨0, (0, 0), (0, 0), (0, 0), 1, 1, false⟩),
         (1, ⟨1, (1, 0), (0, 0), (0, 0), 1, 1, false⟩)]
        [⟨0, (0, 0), (0, 0), (0, 0), 1, 1, false⟩,
         ⟨1, (1, 0), (0, 0), (0, 0), 1, 1, false⟩]) 5).map (fun b => b.m)
      = some 1
    ∧ totalMass [⟨0, (0, 0), (0, 0), (0, 0), 1, 1, false⟩,
        ⟨1, (1, 0), (0, 0), (0, 0), 1, 1, false⟩] = 2
    ∧ ((1 : ℚ)) ≠ 2 := by
  refine ⟨by decide, by decide, by decide⟩

/-- C2 (amended): the merge product's mass is
`min(Σ member masses, MAX_MASS)`; it equals the exact sum whenever the
sum does not exceed the clamp, and in that regime the momentum
`mass * velocity` of a product of a group with no static member equals
the summed momentum `Σ(m_i * vel_i)` of the members exactly. -/
theorem C2_mass_momentum_amended (maxMass : ℚ) (radiusOf : ℚ → ℚ)
    (nextId : Nat) (bodies : BodyMap) (coll : List Body) (nb : Body)
    (hnb : mapFind (resolveGroup maxMass radiusOf nextId bodies coll)
        nextId = some nb) :
    nb.m = min (totalMass coll) maxMass
    ∧ (totalMass coll ≤ maxMass → nb.m = totalMass coll)
    ∧ (totalMass coll ≤ maxMass → totalMass coll ≠ 0 →
        List.any coll (fun b => b.isStatic) = false →
        vmul nb.vel nb.m = momentumSum coll) := by
  have hself : mapFind (resolveGroup maxMass radiusOf nextId bodies coll)
      nextId
      = some (mkBody maxMass radiusOf nextId (totalMass coll)
          (if (List.find? (fun b => b.isStatic) coll).isSome then (0, 0)
           else centerOfMass coll)
          (if (List.find? (fun b => b.isStatic) coll).isSome then (0, 0)
           else nCollisionMomentum coll)
          ((List.find? (fun b => b.isStatic) coll).isSome)) := by
    simp only [resolveGroup, mkBody]
    exact mapFind_mapSet_self _ _ _
  rw [hself] at hnb
  injection hnb with hnb
  subst hnb
  refine ⟨rfl, fun hle => ?_, fun hle hm hs => ?_⟩
  · simp only [mkBody]
    exact min_eq_left hle
  · simp only [mkBody, find?_isSome_eq_any coll (fun b => b.isStatic), hs]
    rw [if_neg (by simp)]
    rw [min_eq_left hle]
    unfold nCollisionMomentum vmul vdiv
    apply Prod.ext <;> simp <;> exact div_mul_cancel₀ _ hm

/-- C2 (amended) witness: masses 1 and 3 with MAX_MASS = 100: the
product has mass 4 and momentum (1, 6), exactly the summed momentum of
the members. -/
theorem C2_mass_momentum_amended_witness :
    vmul ((1/4 : ℚ), (3/2 : ℚ)) 4
      = momentumSum [⟨0, (0, 0), (1, 0), (0, 0), 1, 1, false⟩,
          ⟨1, (2, 0), (0, 2), (0, 0), 3, 3, false⟩] := by
  have h := (C2_mass_momentum_amended 100 (fun q => q) 6
      [(0, ⟨0, (0, 0), (1, 0), (0, 0), 1, 1, false⟩),
       (1, ⟨1, (2, 0), (0, 2), (0, 0), 3, 3, false⟩)]
      [⟨0, (0, 0), (1, 0), (0, 0), 1, 1, false⟩,
       ⟨1, (2, 0), (0, 2), (0, 0), 3, 3, false⟩]
      ⟨6, (3/2, 0), (1/4, 3/2), (0, 0), 4, 4, false⟩
      (by decide)).2.2 (by decide) (by decide) (by decide)
  exact h
